import Mathlib

/-!
Verification of the atproto-lastfm-importer core against its specification.

The TypeScript sources are shallowly embedded:
* pure functions become Lean functions;
* JavaScript strings become `String`, with `toLowerCase`/`trim` embedded as
  data-level maps (`jsToLower`, `jsTrim`) so that concrete keys evaluate;
* the remote agent becomes explicit oracles: `listRecords` pagination is a list
  of page results, `applyWrites` is a function from call index to response, the
  killswitch is a function from poll index to `Bool`;
* effectful calls are recorded in an explicit trace (the list of issued
  `applyWrites` batches, respectively delete calls), and fallible operations
  return `Except String`.
-/

/-! ## Data model (src/types.ts, as used by the embedded functions)

Only the fields the embedded functions inspect are modelled; fields that are
only printed (album, origin URL, MusicBrainz ids, duration) are omitted. -/

/-- One entry of `PlayRecord.artists`. -/
structure Artist where
  artistName : String
deriving DecidableEq

/-- A listening event (`PlayRecord`).  `rtype` embeds the `$type` field. -/
structure PlayRecord where
  rtype : String
  artists : List Artist
  trackName : String
  playedTime : String
deriving DecidableEq

/-- A record as stored remotely (`ExistingRecord` in src/lib/sync.ts). -/
structure ExistingRecord where
  uri : String
  cid : String
  value : PlayRecord
deriving DecidableEq

/-- `PublishResult` from src/types.ts. -/
structure PublishResult where
  successCount : Nat
  errorCount : Nat
  cancelled : Bool
deriving DecidableEq

/-- One `com.atproto.repo.applyWrites#create` operation, as built in
`processDayBatchWithApplyWrites` (part_001, lines 183-187). -/
structure WriteOp where
  writeType : String
  collection : String
  value : PlayRecord
deriving DecidableEq

/-- One `com.atproto.repo.deleteRecord` call, as issued in `removeDuplicates`
(src/lib/sync.ts, lines 334-338). -/
structure DeleteCall where
  repo : String
  collection : String
  rkey : String
deriving DecidableEq

/-! ## JavaScript string primitives -/

/-- Embedding of JavaScript `String.prototype.toLowerCase` (ASCII case fold;
the concrete inputs in this development are ASCII). -/
def jsToLower (s : String) : String :=
  String.mk (s.data.map Char.toLower)

/-- Embedding of JavaScript `String.prototype.trim`: drop leading and trailing
whitespace. -/
def jsTrim (s : String) : String :=
  String.mk (((s.data.dropWhile Char.isWhitespace).reverse.dropWhile
    Char.isWhitespace).reverse)

/-- Embedding of JavaScript `uri.split('/').pop()`: the last `/`-separated
component (`split` always yields at least one element, so `pop` is total). -/
def lastUriComponent (uri : String) : String :=
  (uri.splitOn "/").getLastD ""

/-! ## The existing-records map

`fetchExistingRecords` builds a JavaScript `Map<string, ExistingRecord>`;
it is embedded as an insertion-ordered association list with `Map.set`
replacing in place and `Map.has` testing key membership. -/

/-- JavaScript `Map.set`: overwrite the value at the key if present (keeping
its position), otherwise append the pair at the end. -/
def mapSet (k : String) (v : ExistingRecord) :
    List (String × ExistingRecord) → List (String × ExistingRecord)
  | [] => [(k, v)]
  | (k', v') :: rest =>
    if k' = k then (k', v) :: rest else (k', v') :: mapSet k v rest

/-- JavaScript `Map.has`. -/
def mapHas (m : List (String × ExistingRecord)) (k : String) : Bool :=
  m.any (fun kv => kv.1 == k)

/-! ## src/lib/sync.ts -/

/-- `createRecordKey` (src/lib/sync.ts, lines 138-148): the dedup fingerprint.
The primary artist name and the track name are lower-cased and trimmed; the
played-time string is used as-is; the three fields are joined with `|||`. -/
def createRecordKey (record : PlayRecord) : String :=
  let artist := ((record.artists.head?).map Artist.artistName).getD ""
  let track := record.trackName
  let timestamp := record.playedTime
  let normalizedArtist := jsTrim (jsToLower artist)
  let normalizedTrack := jsTrim (jsToLower track)
  normalizedArtist ++ "|||" ++ normalizedTrack ++ "|||" ++ timestamp

/-- `filterNewRecords` (src/lib/sync.ts, lines 153-193): keep, in order, the
records whose key is absent from the existing-records map (the `duplicates`
list is only used for console output). -/
def filterNewRecords (lastfmRecords : List PlayRecord)
    (existingRecords : List (String × ExistingRecord)) : List PlayRecord :=
  match lastfmRecords with
  | [] => []
  | record :: rest =>
    if mapHas existingRecords (createRecordKey record) then
      filterNewRecords rest existingRecords
    else
      record :: filterNewRecords rest existingRecords

/-- One page of a `listRecords` pagination: either the page fetch throws, or it
returns a list of records.  The cursor is implicit: a next page exists exactly
when the page list has a successor. -/
abbrev PageResult := Except String (List ExistingRecord)

/-- Pagination loop of `fetchExistingRecords` (src/lib/sync.ts, lines 37-75):
fold the pages into the key-indexed map, overwriting on duplicate keys; any
page error is rethrown. -/
def fetchExistingPages : List PageResult → List (String × ExistingRecord) →
    Except String (List (String × ExistingRecord))
  | [], acc => .ok acc
  | page :: rest, acc =>
    match page with
    | .error e => .error e
    | .ok records =>
      fetchExistingPages rest
        (records.foldl
          (fun m record =>
            mapSet (createRecordKey record.value)
              ⟨record.uri, record.cid, record.value⟩ m)
          acc)

/-- `fetchExistingRecords` (src/lib/sync.ts, lines 21-76): fails when the agent
has no authenticated session DID, otherwise paginates into the key map. -/
def fetchExistingRecords (sessionDid : Option String) (pages : List PageResult) :
    Except String (List (String × ExistingRecord)) :=
  match sessionDid with
  | none => .error "No authenticated session found"
  | some _ => fetchExistingPages pages []

/-- Pagination loop of `fetchAllRecords` (src/lib/sync.ts, lines 98-124):
append every record of every page; any page error is rethrown. -/
def fetchAllPages : List PageResult → List ExistingRecord →
    Except String (List ExistingRecord)
  | [], acc => .ok acc
  | page :: rest, acc =>
    match page with
    | .error e => .error e
    | .ok records => fetchAllPages rest (acc ++ records)

/-- `fetchAllRecords` (src/lib/sync.ts, lines 82-132): like
`fetchExistingRecords` but keeps every occurrence, in listing order. -/
def fetchAllRecords (sessionDid : Option String) (pages : List PageResult) :
    Except String (List ExistingRecord) :=
  match sessionDid with
  | none => .error "No authenticated session found"
  | some _ => fetchAllPages pages []

/-! ## Duplicate detection (src/lib/sync.ts, lines 248-361) -/

/-- Push a record onto the group of its key in the insertion-ordered group map
(the body of the first loop of `findDuplicates`). -/
def addToGroups (k : String) (r : ExistingRecord) :
    List (String × List ExistingRecord) → List (String × List ExistingRecord)
  | [] => [(k, [r])]
  | (k', g) :: rest =>
    if k' = k then (k', g ++ [r]) :: rest else (k', g) :: addToGroups k r rest

/-- The `keyGroups` map built by `findDuplicates` (src/lib/sync.ts, lines
251-260): group the records by `createRecordKey`, preserving both the listing
order inside each group and the first-occurrence order of keys. -/
def keyGroups (allRecords : List ExistingRecord) :
    List (String × List ExistingRecord) :=
  allRecords.foldl (fun m r => addToGroups (createRecordKey r.value) r m) []

/-- `findDuplicates` (src/lib/sync.ts, lines 248-271): the key groups with two
or more members. -/
def findDuplicates (allRecords : List ExistingRecord) :
    List (String × List ExistingRecord) :=
  (keyGroups allRecords).filter (fun kg => 1 < kg.2.length)

/-- The deletion loop of `removeDuplicates` (src/lib/sync.ts, lines 328-353):
attempt one `deleteRecord` call per doomed record; `deleteOk i` tells whether
the `i`-th delete call succeeds; failures are silently skipped.  Returns the
number of successful deletions and the trace of issued calls. -/
def deleteLoop (repo : String) (deleteOk : Nat → Bool) :
    List ExistingRecord → Nat → Nat → Nat × List DeleteCall
  | [], _, removed => (removed, [])
  | r :: rest, i, removed =>
    let call : DeleteCall := ⟨repo, r.value.rtype, lastUriComponent r.uri⟩
    let removed' := if deleteOk i then removed + 1 else removed
    let (finalRemoved, trace) := deleteLoop repo deleteOk rest (i + 1) removed'
    (finalRemoved, call :: trace)

/-- `removeDuplicates` (src/lib/sync.ts, lines 276-361).  Fetches the full
list, groups it, and either reports (dry run) or deletes all but the first
member of every duplicate group.  The result pairs
`{totalDuplicates, recordsRemoved}` with the trace of issued delete calls. -/
def removeDuplicates (sessionDid : Option String) (pages : List PageResult)
    (deleteOk : Nat → Bool) (dryRun : Bool) :
    Except String ((Nat × Nat) × List DeleteCall) :=
  match fetchAllRecords sessionDid pages with
  | .error e => .error e
  | .ok allRecords =>
    let duplicateGroups := findDuplicates allRecords
    if duplicateGroups.isEmpty then .ok ((0, 0), [])
    else
      let totalDuplicates :=
        duplicateGroups.foldl (fun sum group => sum + (group.2.length - 1)) 0
      if dryRun then .ok ((totalDuplicates, 0), [])
      else
        let doomed := duplicateGroups.flatMap (fun group => group.2.drop 1)
        let (recordsRemoved, trace) :=
          deleteLoop (sessionDid.getD "") deleteOk doomed 0 0
        .ok ((totalDuplicates, recordsRemoved), trace)

/-! ## src/utils/tid.ts and the library TID (src/unnamed/part_002)

JavaScript `Date` values are embedded as their `getTime()` result in
milliseconds; every timestamp the importer handles is on or after the Unix
epoch, so milliseconds are a `Nat`.  (In the domains proved below all
arithmetic is exact in IEEE doubles: microsecond values stay of the form
`m * 8` with `m < 2^52`.) -/

/-- The sortable base-32 alphabet `'234567abcdefghijklmnopqrstuvwxyz'` of
`@atproto/common-web`'s `s32encode`, as a positional lookup. -/
def S32_CHAR : List Char :=
  ['2', '3', '4', '5', '6', '7', 'a', 'b', 'c', 'd', 'e', 'f', 'g', 'h', 'i',
   'j', 'k', 'l', 'm', 'n', 'o', 'p', 'q', 'r', 's', 't', 'u', 'v', 'w', 'x',
   'y', 'z']

/-- `S32_CHAR.charAt d` for a digit `d < 32`. -/
def s32char (d : Nat) : Char :=
  S32_CHAR.getD d ' '

/-- The big-endian base-32 digit list of `n` (no leading zeros; empty for 0).
This is the digit sequence produced by the `while (i)` loop of `s32encode`. -/
def s32digits (n : Nat) : List Nat :=
  if h : n = 0 then []
  else s32digits (n / 32) ++ [n % 32]
termination_by n
decreasing_by exact Nat.div_lt_self (Nat.pos_of_ne_zero h) (by omega)

/-- `s32encode` from `@atproto/common-web` (imported by src/utils/tid.ts):
base-32 encode with the sortable alphabet; `s32encode 0` is the empty
string, exactly as in the JavaScript `while (i)` loop. -/
def s32encode (n : Nat) : String :=
  if h : n = 0 then ""
  else s32encode (n / 32) ++ String.singleton (s32char (n % 32))
termination_by n
decreasing_by exact Nat.div_lt_self (Nat.pos_of_ne_zero h) (by omega)

/-- JavaScript `String.prototype.padStart(targetLength, padChar)`. -/
def padStart (s : String) (targetLength : Nat) (c : Char) : String :=
  String.mk (List.replicate (targetLength - s.length) c) ++ s

/-- `generateTID` (src/utils/tid.ts, lines 28-44): microsecond timestamp
base-32 encoded and left-padded with `'2'` to 11 characters, followed by the
clockid 0 encoded and padded to 2 characters. -/
def generateTID (dateMs : Nat) : String :=
  let unixMicros := dateMs * 1000
  let clockid := 0
  let timestampStr := padStart (s32encode unixMicros) 11 '2'
  let clockidStr := padStart (s32encode clockid) 2 '2'
  timestampStr ++ clockidStr

namespace TidLib

/-- `TID.fromTime(timestamp, clockid).toString()` from `@atproto/common-web`,
as used by the src/unnamed/part_002 variant of `generateTID`: the timestamp is
NOT padded, only the clockid is padded to 2 characters, and the `TID`
constructor throws `Poorly formatted TID` unless the resulting string has
exactly 13 characters (the string contains no dashes, so the constructor's
dash-stripping is the identity). -/
def fromTime (timestamp clockid : Nat) : Except String String :=
  let str := s32encode timestamp ++ padStart (s32encode clockid) 2 '2'
  if str.length = 13 then .ok str else .error "Poorly formatted TID"

/-- `generateTID` (src/unnamed/part_002, lines 15-25): delegate to the library
`TID.fromTime` with microseconds and clockid 0. -/
def generateTID (dateMs : Nat) : Except String String :=
  let unixMicros := dateMs * 1000
  let clockid := 0
  fromTime unixMicros clockid

end TidLib

/-! ## src/utils/helpers.ts -/

/-- The numeric tunables of `Config` consumed by `calculateOptimalBatchSize`.
The scaling factor is kept real-valued (a JavaScript number). -/
structure BatchConfig where
  MIN_RECORDS_FOR_SCALING : Nat
  BASE_BATCH_SIZE : Nat
  MAX_BATCH_SIZE : Nat
  SCALING_FACTOR : Real
  DEFAULT_BATCH_DELAY : Nat

/-- `calculateOptimalBatchSize` (src/utils/helpers.ts, lines 93-128).
`Math.log2` is embedded as the exact real logarithm and `Math.floor` as the
integer floor; `batchDelay || DEFAULT_BATCH_DELAY` is the JavaScript falsy
fallback, i.e. the default applies exactly when `batchDelay = 0`. -/
noncomputable def calculateOptimalBatchSize (totalRecords batchDelay : Nat)
    (config : BatchConfig) : Nat :=
  let delay := if batchDelay = 0 then config.DEFAULT_BATCH_DELAY else batchDelay
  if totalRecords ≤ 50 then 3
  else if totalRecords ≤ config.MIN_RECORDS_FOR_SCALING then
    config.BASE_BATCH_SIZE
  else
    let logScale : Real :=
      Real.logb 2 ((totalRecords : Real) / (config.MIN_RECORDS_FOR_SCALING : Real))
    let calculatedSize : Int :=
      ⌊(config.BASE_BATCH_SIZE : Real) + logScale * config.SCALING_FACTOR⌋
    let optimalSize : Int := min calculatedSize (config.MAX_BATCH_SIZE : Int)
    let reducedSize : Int :=
      if delay < 1500 ∧ 15 < optimalSize then ⌊(optimalSize : Real) * 0.75⌋
      else optimalSize
    (max 3 reducedSize).toNat

/-! ## The publish pipeline (src/unnamed/part_001)

The remote agent's `applyWrites` endpoint is an oracle from call index to
response: either the call throws, or it succeeds and reports
`results?.length` (`none` embeds an absent `results` field).  The killswitch
is an oracle from poll index to `Bool`; each textual occurrence of
`isImportCancelled()` consumes one successive poll index. -/

/-- Maximum operations allowed per applyWrites call (part_001, line 16). -/
def MAX_APPLY_WRITES_OPS : Nat := 10

/-- Response of one `applyWrites` call: `Except.error` embeds a thrown call,
`Except.ok results` a successful call reporting `results?.length`. -/
abbrev ApplyResponse := Except String (Option Nat)

/-- Per-chunk accounting (part_001, lines 189-216): on success the counted
acceptances are `response.data.results?.length || batch.length` — the
JavaScript `||` makes both an absent `results` field and a reported length of
0 count as a fully-accepted chunk — and the shortfall, if any, is added to the
failures; on a thrown call the entire chunk counts as failed.  Returns the
pair (added successes, added failures). -/
def batchOutcome (response : ApplyResponse) (batchLength : Nat) : Nat × Nat :=
  match response with
  | .error _ => (0, batchLength)
  | .ok results =>
    let batchSuccessCount :=
      match results with
      | some n => if n = 0 then batchLength else n
      | none => batchLength
    (batchSuccessCount,
     if batchSuccessCount < batchLength then batchLength - batchSuccessCount
     else 0)

/-- `handleCancellation` (part_001, lines 351-360). -/
def handleCancellation (successCount errorCount : Nat) : PublishResult :=
  ⟨successCount, errorCount, true⟩

/-- The writes array built for one batch (part_001, lines 183-187). -/
def mkWrites (recordType : String) (batch : List PlayRecord) : List WriteOp :=
  batch.map (fun record => ⟨"com.atproto.repo.applyWrites#create", recordType, record⟩)

/-- The batches visited by `for (let i = 0; i < records.length; i += batchSize)`
with `batch = records.slice(i, min(i + batchSize, records.length))`.  Each
step consumes at least one record (the source loop does not terminate for
`batchSize = 0`; every caller passes a positive batch size, and for a positive
batch size this is exactly the slicing of the source). -/
def chunks (batchSize : Nat) : List PlayRecord → List (List PlayRecord)
  | [] => []
  | r :: rest =>
    (r :: rest.take (batchSize - 1)) :: chunks batchSize (rest.drop (batchSize - 1))
termination_by l => l.length
decreasing_by
  simp only [List.length_cons, List.length_drop]
  omega

/-- The batch loop of `processDayBatchWithApplyWrites` (part_001, lines
164-242) over the precomputed batch list.  `t` is the next killswitch poll
index and `c` the next `applyWrites` call index; each iteration polls the
killswitch before the batch (line 166), issues the `applyWrites` call, polls
once as the guard of the time-estimate output (line 229, control-irrelevant),
and polls again before the inter-batch wait (line 234).  Returns the publish
result together with the trace of issued writes arrays. -/
def processChunks (oracle : Nat → ApplyResponse) (kill : Nat → Bool)
    (recordType : String) :
    List (List PlayRecord) → Nat → Nat → Nat → Nat →
    PublishResult × List (List WriteOp)
  | [], _, _, successCount, errorCount => (⟨successCount, errorCount, false⟩, [])
  | batch :: rest, t, c, successCount, errorCount =>
    if kill t then (handleCancellation successCount errorCount, [])
    else
      let writes := mkWrites recordType batch
      let (s, e) := batchOutcome (oracle c) batch.length
      let successCount' := successCount + s
      let errorCount' := errorCount + e
      -- poll t+1: the `if (!isImportCancelled())` time-estimate guard
      if kill (t + 2) then (handleCancellation successCount' errorCount', [writes])
      else
        let (result, trace) :=
          processChunks oracle kill recordType rest (t + 3) (c + 1)
            successCount' errorCount'
        (result, writes :: trace)

/-- `processDayBatchWithApplyWrites` (part_001, lines 151-245), with poll and
call indices starting at `t` and `c` (the `globalOffset`, `totalRecords` and
`startTime` parameters of the source only feed console output). -/
def processDayBatchWithApplyWrites (oracle : Nat → ApplyResponse)
    (kill : Nat → Bool) (records : List PlayRecord) (batchSize : Nat)
    (recordType : String) (t c : Nat) : PublishResult × List (List WriteOp) :=
  processChunks oracle kill recordType (chunks batchSize records) t c 0 0

/-- The rate-limit parameters returned by `calculateRateLimitedBatches`.
Modelled from the spec: src/utils/rate-limiter.ts is not among the provided
sources; §4.3 names the fields the publish pipeline consumes. -/
structure RateLimitParams where
  needsRateLimiting : Bool
  batchSize : Nat
  batchDelay : Nat
  estimatedDays : Nat
  recordsPerDay : Nat

/-- One entry of the Daily Schedule. -/
structure ScheduleDay where
  day : Nat
  recordsStart : Nat
  recordsEnd : Nat
  recordsCount : Nat
  pauseAfter : Bool
  pauseDuration : Nat

/-- Modelled from the spec: `calculateDailySchedule` lives in
src/utils/rate-limiter.ts, which is not among the provided sources.  Per
§4.3.4 the record sequence is partitioned into contiguous ranges of size at
most `recordsPerDay`; every day except the last is marked pause-after with a
24-hour pause. -/
def calculateDailySchedule (totalRecords batchSize batchDelay recordsPerDay : Nat) :
    List ScheduleDay :=
  let days := (totalRecords + recordsPerDay - 1) / recordsPerDay
  (List.range days).map (fun i =>
    ⟨i + 1, i * recordsPerDay, min ((i + 1) * recordsPerDay) totalRecords,
     min ((i + 1) * recordsPerDay) totalRecords - i * recordsPerDay,
     i + 1 < days, 86400000⟩)

/-- The multi-day loop of `publishRecordsWithApplyWrites` (part_001, lines
88-123): slice each day's record range, run the day's batch loop, accumulate
counts and traces, and stop with `cancelled = true` as soon as a day reports
cancellation.  The poll and call indices advance by the number of batches of
the completed day (3 polls per batch); the 24-hour pause issues no polls and
no calls. -/
def runDays (oracle : Nat → ApplyResponse) (kill : Nat → Bool)
    (recordType : String) (batchSize : Nat) (records : List PlayRecord) :
    List ScheduleDay → Nat → Nat → Nat → Nat → List (List WriteOp) →
    PublishResult × List (List WriteOp)
  | [], _, _, successCount, errorCount, trace =>
    (⟨successCount, errorCount, false⟩, trace)
  | day :: rest, t, c, successCount, errorCount, trace =>
    let dayRecords :=
      (records.drop day.recordsStart).take (day.recordsEnd - day.recordsStart)
    let dayChunks := chunks batchSize dayRecords
    let (result, dayTrace) := processChunks oracle kill recordType dayChunks t c 0 0
    let successCount' := successCount + result.successCount
    let errorCount' := errorCount + result.errorCount
    let trace' := trace ++ dayTrace
    if result.cancelled then (⟨successCount', errorCount', true⟩, trace')
    else
      runDays oracle kill recordType batchSize records rest
        (t + 3 * dayChunks.length) (c + dayChunks.length)
        successCount' errorCount' trace'

/-- `handleDryRun` (part_001, lines 250-346): everything except the returned
simulated result is console output (the rate-limit recomputation in the body
only feeds that output). -/
def handleDryRun (records : List PlayRecord) (batchSize batchDelay : Nat)
    (syncMode : Bool) : PublishResult :=
  ⟨records.length, 0, false⟩

/-- `publishRecordsWithApplyWrites` (part_001, lines 21-146).  The agent is
`none` or an `applyWrites` oracle; `rateLimiter` stands for the
`calculateRateLimitedBatches` result (modelled from the spec: the rate-limiter
module is not among the provided sources, so the pipeline takes its output as
a parameter).  In dry-run mode the simulated result is returned before the
agent check and no write is issued. -/
def publishRecordsWithApplyWrites (agent : Option (Nat → ApplyResponse))
    (kill : Nat → Bool) (records : List PlayRecord)
    (batchSize batchDelay : Nat) (rateLimiter : Nat → RateLimitParams)
    (recordType : String) (dryRun syncMode : Bool) :
    Except String (PublishResult × List (List WriteOp)) :=
  let totalRecords := records.length
  if dryRun then
    .ok (handleDryRun records batchSize batchDelay syncMode, [])
  else
    match agent with
    | none => .error "Agent is required for publishing"
    | some oracle =>
      let rateLimitParams := rateLimiter totalRecords
      let batchSize1 :=
        if rateLimitParams.needsRateLimiting then rateLimitParams.batchSize
        else batchSize
      let batchDelay1 :=
        if rateLimitParams.needsRateLimiting then rateLimitParams.batchDelay
        else batchDelay
      let cappedBatchSize := min batchSize1 MAX_APPLY_WRITES_OPS
      if 1 < rateLimitParams.estimatedDays then
        let dailySchedule :=
          calculateDailySchedule totalRecords cappedBatchSize batchDelay1
            rateLimitParams.recordsPerDay
        .ok (runDays oracle kill recordType cappedBatchSize records
          dailySchedule 0 0 0 0 [])
      else
        .ok (processChunks oracle kill recordType
          (chunks cappedBatchSize records) 0 0 0 0)

/-! ## Specification-side definitions used by the theorems -/

/-- The counts accumulated by the batch loop over its first `k` chunks,
starting at call index `c`: per chunk, the added successes and failures of
`batchOutcome`. -/
def countsFrom (oracle : Nat → ApplyResponse) :
    Nat → List (List PlayRecord) → Nat → Nat × Nat
  | _, _, 0 => (0, 0)
  | _, [], _ + 1 => (0, 0)
  | c, batch :: rest, k + 1 =>
    let (s, e) := batchOutcome (oracle c) batch.length
    let (s', e') := countsFrom oracle (c + 1) rest k
    (s + s', e + e')

/-- The big-endian, fixed-width-`w` base-32 digit list of `n`. -/
def natDigitsBE : Nat → Nat → List Nat
  | 0, _ => []
  | w + 1, n => natDigitsBE w (n / 32) ++ [n % 32]

/-! ## Concrete fixtures -/

/-- The record of the spec's §8 dedup scenario. -/
def bohemian : PlayRecord :=
  ⟨"fm.teal.alpha.feed.play", [⟨"Queen"⟩], "Bohemian Rhapsody",
   "2024-01-01T00:00:00Z"⟩

/-- A second record with a different key. -/
def nightOpera : PlayRecord :=
  ⟨"fm.teal.alpha.feed.play", [⟨"Queen"⟩], "Love of My Life",
   "2024-01-01T00:04:00Z"⟩

/-- A stored copy of `bohemian`. -/
def storedBohemian : ExistingRecord :=
  ⟨"at://did:plc:x/fm.teal.alpha.feed.play/aaa", "cid1", bohemian⟩

/-- A second stored copy of `bohemian` (same key, different location). -/
def storedBohemian' : ExistingRecord :=
  ⟨"at://did:plc:x/fm.teal.alpha.feed.play/bbb", "cid2", bohemian⟩

/-- A stored copy of `nightOpera`. -/
def storedNightOpera : ExistingRecord :=
  ⟨"at://did:plc:x/fm.teal.alpha.feed.play/ccc", "cid3", nightOpera⟩

/-- A demonstration configuration for `calculateOptimalBatchSize`:
scaling threshold 100, base size 15, maximum 50, scaling factor 1,
default delay 2000 ms. -/
def demoConfig : BatchConfig := ⟨100, 15, 50, 1, 2000⟩

/-! ## Helper lemmas -/

theorem foldl_add_map {α : Type} (f : α → Nat) :
    ∀ (l : List α) (a : Nat), l.foldl (fun s x => s + f x) a = a + (l.map f).sum := by
  intro l
  induction l with
  | nil => simp
  | cons x xs ih => intro a; simp [ih, Nat.add_assoc]

theorem fetchExistingPages_error (okPages : List PageResult) (e : String)
    (rest : List PageResult) :
    ∀ acc, (∀ p ∈ okPages, ∃ v, p = .ok v) →
    fetchExistingPages (okPages ++ .error e :: rest) acc = .error e := by
  induction okPages with
  | nil => intro acc _; rfl
  | cons p ps ih =>
    intro acc h
    obtain ⟨v, rfl⟩ := h p (by simp)
    exact ih _ (fun q hq => h q (by simp [hq]))

theorem fetchAllPages_error (okPages : List PageResult) (e : String)
    (rest : List PageResult) :
    ∀ acc, (∀ p ∈ okPages, ∃ v, p = .ok v) →
    fetchAllPages (okPages ++ .error e :: rest) acc = .error e := by
  induction okPages with
  | nil => intro acc _; rfl
  | cons p ps ih =>
    intro acc h
    obtain ⟨v, rfl⟩ := h p (by simp)
    exact ih _ (fun q hq => h q (by simp [hq]))

theorem addToGroups_fresh (k : String) (r : ExistingRecord) :
    ∀ m, (∀ kg ∈ m, kg.1 ≠ k) → addToGroups k r m = m ++ [(k, [r])] := by
  intro m
  induction m with
  | nil => intro _; rfl
  | cons kg rest ih =>
    intro h
    obtain ⟨k', g⟩ := kg
    have hk : k' ≠ k := h (k', g) (by simp)
    simp only [addToGroups, if_neg hk, List.cons_append, List.cons.injEq, true_and]
    exact ih (fun q hq => h q (by simp [hq]))

theorem keyGroups_foldl_singletons :
    ∀ (recs : List ExistingRecord) (m : List (String × List ExistingRecord)),
    (recs.map (fun r => createRecordKey r.value)).Nodup →
    (∀ kg ∈ m, kg.2.length = 1 ∧
      kg.1 ∉ recs.map (fun r => createRecordKey r.value)) →
    ∀ kg ∈ recs.foldl (fun m r => addToGroups (createRecordKey r.value) r m) m,
      kg.2.length = 1 := by
  intro recs
  induction recs with
  | nil =>
    intro m _ hm kg hkg
    exact (hm kg hkg).1
  | cons r rest ih =>
    intro m hnd hm kg hkg
    simp only [List.map_cons, List.nodup_cons] at hnd
    simp only [List.foldl_cons] at hkg
    have hfresh : ∀ kg' ∈ m, kg'.1 ≠ createRecordKey r.value := by
      intro kg' hkg'
      intro hkeq
      exact (hm kg' hkg').2 (by simp [hkeq])
    rw [addToGroups_fresh _ _ m hfresh] at hkg
    refine ih (m ++ [(createRecordKey r.value, [r])]) hnd.2 ?_ kg hkg
    intro kg' hkg'
    rcases List.mem_append.mp hkg' with hmem | hmem
    · exact ⟨(hm kg' hmem).1, fun hc => (hm kg' hmem).2 (by simp [hc])⟩
    · simp only [List.mem_singleton] at hmem
      subst hmem
      exact ⟨rfl, hnd.1⟩

theorem findDuplicates_of_nodup (recs : List ExistingRecord)
    (h : (recs.map (fun r => createRecordKey r.value)).Nodup) :
    findDuplicates recs = [] := by
  rw [findDuplicates, List.filter_eq_nil_iff]
  intro kg hkg
  have h1 : kg.2.length = 1 := by
    refine keyGroups_foldl_singletons recs [] h ?_ kg hkg
    intro kg' hkg'
    simp at hkg'
  simp [h1]

/-! ## C1: the dedup-scenario key -/

/-- C1 counterexample.  The claim says that with the fully case-folded key
`"queen|||bohemian rhapsody|||2024-01-01t00:00:00z"` in the existing index,
the Queen record is classified as a duplicate and `filterNewRecords` returns
the empty list.  On the code this is false: `createRecordKey` lower-cases only
the artist and the track, not the timestamp, so the computed key keeps
`...T00:00:00Z`, does not match, and the record is classified as new. -/
theorem filterNewRecords_lowercased_timestamp_not_duplicate :
    createRecordKey bohemian ≠ "queen|||bohemian rhapsody|||2024-01-01t00:00:00z" ∧
    filterNewRecords [bohemian]
      [("queen|||bohemian rhapsody|||2024-01-01t00:00:00z", storedBohemian)] =
      [bohemian] := by
  decide

/-- C1 amended: with the existing index keyed by
`"queen|||bohemian rhapsody|||2024-01-01T00:00:00Z"` — artist and track
case-folded, the timestamp kept verbatim, which is the key `createRecordKey`
actually computes — the record is classified as a duplicate and
`filterNewRecords` returns the empty list. -/
theorem filterNewRecords_duplicate_scenario :
    createRecordKey bohemian = "queen|||bohemian rhapsody|||2024-01-01T00:00:00Z" ∧
    filterNewRecords [bohemian]
      [("queen|||bohemian rhapsody|||2024-01-01T00:00:00Z", storedBohemian)] =
      [] := by
  decide

/-! ## C7: fetch failures are fatal -/

/-- C7: `fetchExistingRecords` and `fetchAllRecords` fail with the
authentication error when no session DID is available, and any page error
during pagination (all earlier pages having succeeded) makes the whole fetch
fail with that error — in the `Except` embedding an error result carries no
partial index or list. -/
theorem fetch_failures_propagate :
    (∀ pages : List PageResult,
      fetchExistingRecords none pages = .error "No authenticated session found" ∧
      fetchAllRecords none pages = .error "No authenticated session found") ∧
    (∀ (did : String) (okPages : List PageResult) (e : String)
      (rest : List PageResult),
      (∀ p ∈ okPages, ∃ v, p = .ok v) →
      fetchExistingRecords (some did) (okPages ++ .error e :: rest) = .error e ∧
      fetchAllRecords (some did) (okPages ++ .error e :: rest) = .error e) := by
  constructor
  · intro pages
    exact ⟨rfl, rfl⟩
  · intro did okPages e rest h
    exact ⟨fetchExistingPages_error okPages e rest [] h,
      fetchAllPages_error okPages e rest [] h⟩

/-- C7 witness: a concrete pagination whose second page throws aborts both
fetches with that page's error. -/
theorem fetch_failures_propagate_witness :
    fetchExistingRecords (some "did:plc:x")
      [.ok [storedBohemian], .error "network down"] = .error "network down" ∧
    fetchAllRecords (some "did:plc:x")
      [.ok [storedBohemian], .error "network down"] = .error "network down" := by
  have hok : ∀ p ∈ ([.ok [storedBohemian]] : List PageResult), ∃ v, p = .ok v := by
    intro p hp
    simp only [List.mem_singleton] at hp
    exact ⟨[storedBohemian], hp⟩
  have h := fetch_failures_propagate.2 "did:plc:x" [.ok [storedBohemian]]
    "network down" [] hok
  simpa using h

/-! ## C8: dry run issues no writes -/

/-- C8: with `dryRun = true` the publish pipeline returns the simulated result
`{successCount = total, errorCount = 0, cancelled = false}` and its write
trace is empty — no `applyWrites` call is issued (the dry-run return happens
even before the agent check). -/
theorem dryRun_simulated_result (agent : Option (Nat → ApplyResponse))
    (kill : Nat → Bool) (records : List PlayRecord) (batchSize batchDelay : Nat)
    (rateLimiter : Nat → RateLimitParams) (recordType : String) (syncMode : Bool) :
    publishRecordsWithApplyWrites agent kill records batchSize batchDelay
      rateLimiter recordType true syncMode =
      .ok (⟨records.length, 0, false⟩, []) := rfl

/-! ## C9: the duplicate sweep in dry-run mode -/

/-- Reduction of the dry-run sweep: a successful one-page fetch followed by
the dry-run branch of `removeDuplicates`. -/
theorem removeDuplicates_dry_reduce (recs : List ExistingRecord)
    (did : String) (deleteOk : Nat → Bool) :
    removeDuplicates (some did) [.ok recs] deleteOk true =
      (if (findDuplicates recs).isEmpty then .ok ((0, 0), [])
       else .ok (((findDuplicates recs).foldl
         (fun sum group => sum + (group.2.length - 1)) 0, 0), [])) := rfl

/-- C9: on any fetched record list, `removeDuplicates` with `dryRun = true`
issues no delete call and reports `totalDuplicates` equal to the sum, over the
key groups of size at least 2, of (group size − 1), with `recordsRemoved = 0`;
when no key occurs twice the result is `(0, 0)`. -/
theorem removeDuplicates_dry_run_counts (recs : List ExistingRecord)
    (did : String) (deleteOk : Nat → Bool) :
    removeDuplicates (some did) [.ok recs] deleteOk true =
      .ok (((((keyGroups recs).filter (fun kg => 1 < kg.2.length)).map
        (fun kg => kg.2.length - 1)).sum, 0), []) ∧
    ((recs.map (fun r => createRecordKey r.value)).Nodup →
      removeDuplicates (some did) [.ok recs] deleteOk true = .ok ((0, 0), [])) := by
  have hfd : (keyGroups recs).filter (fun kg => 1 < kg.2.length) =
      findDuplicates recs := rfl
  constructor
  · rw [removeDuplicates_dry_reduce recs did deleteOk, hfd]
    by_cases h : (findDuplicates recs).isEmpty
    · have hnil : findDuplicates recs = [] := by
        simpa [List.isEmpty_iff] using h
      simp [h, hnil]
    · simp only [h, Bool.false_eq_true, if_false]
      rw [foldl_add_map]
      simp
  · intro hnd
    have hnil := findDuplicates_of_nodup recs hnd
    rw [removeDuplicates_dry_reduce recs did deleteOk, hnil]
    rfl

/-- C9 witness: a concrete list with one duplicated key reports one duplicate
and removes nothing; a concrete list with distinct keys reports `(0, 0)`. -/
theorem removeDuplicates_dry_run_counts_witness :
    removeDuplicates (some "did:plc:x")
      [.ok [storedBohemian, storedBohemian', storedNightOpera]]
      (fun _ => true) true = .ok ((1, 0), []) ∧
    removeDuplicates (some "did:plc:x") [.ok [storedBohemian, storedNightOpera]]
      (fun _ => true) true = .ok ((0, 0), []) := by
  constructor
  · rw [(removeDuplicates_dry_run_counts
      [storedBohemian, storedBohemian', storedNightOpera] "did:plc:x"
      (fun _ => true)).1]
    simp only [Except.ok.injEq]
    decide
  · exact (removeDuplicates_dry_run_counts [storedBohemian, storedNightOpera]
      "did:plc:x" (fun _ => true)).2 (by decide)

/-! ## C3: per-chunk accounting in the batch loop -/

/-- C3 counterexample.  The claim says that a successful `applyWrites` call
reporting `N` accepted operations with `N <` chunk size adds exactly
`chunk − N` failures and `N` successes.  For `N = 0` this is false on the
code: `response.data.results?.length || batch.length` treats the reported 0 as
falsy and substitutes the full chunk size, so a chunk whose call succeeds with
zero reported acceptances is counted as fully accepted — here a 3-record chunk
yields `successCount = 3, errorCount = 0` where the claim demands
`successCount = 0, errorCount = 3`. -/
theorem batchLoop_zero_results_counted_success :
    (processDayBatchWithApplyWrites (fun _ => .ok (some 0)) (fun _ => false)
      [bohemian, bohemian, bohemian] 3 "fm.teal.alpha.feed.play" 0 0).1 =
      ⟨3, 0, false⟩ ∧
    (processDayBatchWithApplyWrites (fun _ => .ok (some 0)) (fun _ => false)
      [bohemian, bohemian, bohemian] 3 "fm.teal.alpha.feed.play" 0 0).1 ≠
      ⟨0, 3, false⟩ := by
  have h : chunks 3 [bohemian, bohemian, bohemian] =
      [[bohemian, bohemian, bohemian]] := by
    simp [chunks]
  constructor
  · rw [processDayBatchWithApplyWrites, h]
    decide
  · rw [processDayBatchWithApplyWrites, h]
    decide

/-- C3 amended: in the batch loop, with the killswitch unset at the chunk's
polls, a successful `applyWrites` call reporting `N` accepted operations with
`0 < N <` chunk size adds exactly `N` to the accepted count and
`chunk − N` to the failed count, and a thrown call adds the entire chunk size
to the failed count; in both cases the loop continues with the next chunk (at
the next call index) without retrying, recording the issued writes.  (A
successful call reporting zero acceptances, or omitting the result list, is
counted as a fully accepted chunk — the JavaScript `||` fallback.) -/
theorem batchLoop_accounting (oracle : Nat → ApplyResponse) (kill : Nat → Bool)
    (recordType : String) (batch : List PlayRecord)
    (rest : List (List PlayRecord)) (t c succ err : Nat)
    (hkt : kill t = false) (hkt2 : kill (t + 2) = false) :
    (∀ n, oracle c = .ok (some n) → 0 < n → n < batch.length →
      processChunks oracle kill recordType (batch :: rest) t c succ err =
        ((processChunks oracle kill recordType rest (t + 3) (c + 1)
            (succ + n) (err + (batch.length - n))).1,
         mkWrites recordType batch ::
           (processChunks oracle kill recordType rest (t + 3) (c + 1)
             (succ + n) (err + (batch.length - n))).2)) ∧
    (∀ e, oracle c = .error e →
      processChunks oracle kill recordType (batch :: rest) t c succ err =
        ((processChunks oracle kill recordType rest (t + 3) (c + 1)
            succ (err + batch.length)).1,
         mkWrites recordType batch ::
           (processChunks oracle kill recordType rest (t + 3) (c + 1)
             succ (err + batch.length)).2)) := by
  constructor
  · intro n hor hn hlt
    have houtcome : batchOutcome (oracle c) batch.length = (n, batch.length - n) := by
      rw [hor]
      simp [batchOutcome, Nat.pos_iff_ne_zero.mp hn, hlt]
    rcases hp : processChunks oracle kill recordType rest (t + 3) (c + 1)
      (succ + n) (err + (batch.length - n)) with ⟨res, tr⟩
    simp [processChunks, hkt, hkt2, houtcome, hp]
  · intro e hor
    have houtcome : batchOutcome (oracle c) batch.length = (0, batch.length) := by
      rw [hor]
      rfl
    rcases hp : processChunks oracle kill recordType rest (t + 3) (c + 1)
      succ (err + batch.length) with ⟨res, tr⟩
    simp [processChunks, hkt, hkt2, houtcome, hp]

/-- C3 witness: a 3-record chunk whose call reports 2 acceptances adds 2
successes and 1 failure and the loop moves to call index 1; a chunk whose
call throws adds its full length to the failures and the loop moves on. -/
theorem batchLoop_accounting_witness :
    (processChunks (fun c => if c = 0 then .ok (some 2) else .error "boom")
      (fun _ => false) "fm.teal.alpha.feed.play"
      [[bohemian, bohemian, bohemian], [nightOpera]] 0 0 0 0 =
      ((processChunks (fun c => if c = 0 then .ok (some 2) else .error "boom")
          (fun _ => false) "fm.teal.alpha.feed.play" [[nightOpera]] 3 1 2 1).1,
       mkWrites "fm.teal.alpha.feed.play" [bohemian, bohemian, bohemian] ::
         (processChunks (fun c => if c = 0 then .ok (some 2) else .error "boom")
           (fun _ => false) "fm.teal.alpha.feed.play" [[nightOpera]] 3 1 2 1).2)) ∧
    (processChunks (fun c => if c = 0 then .ok (some 2) else .error "boom")
      (fun _ => false) "fm.teal.alpha.feed.play" [[nightOpera]] 3 1 2 1 =
      ((processChunks (fun c => if c = 0 then .ok (some 2) else .error "boom")
          (fun _ => false) "fm.teal.alpha.feed.play" [] 6 2 2 2).1,
       mkWrites "fm.teal.alpha.feed.play" [nightOpera] ::
         (processChunks (fun c => if c = 0 then .ok (some 2) else .error "boom")
           (fun _ => false) "fm.teal.alpha.feed.play" [] 6 2 2 2).2)) :=
  ⟨(batchLoop_accounting (fun c => if c = 0 then .ok (some 2) else .error "boom")
      (fun _ => false) "fm.teal.alpha.feed.play" [bohemian, bohemian, bohemian]
      [[nightOpera]] 0 0 0 0 rfl rfl).1 2 rfl (by decide) (by decide),
   (batchLoop_accounting (fun c => if c = 0 then .ok (some 2) else .error "boom")
      (fun _ => false) "fm.teal.alpha.feed.play" [nightOpera] [] 3 1 2 1
      rfl rfl).2 "boom" rfl⟩

/-! ## C6: cooperative cancellation between chunks -/

/-- Core induction for C6: if every killswitch poll up to and including the
last poll taken before chunk `k`'s call returns (relative indices `0..3k-3`)
reads `false`, and the pre-chunk poll of chunk `k+1` (relative index `3k`)
reads `true`, the loop stops with `cancelled = true`, the counts accumulated
over exactly the first `k` chunks, and the writes of exactly the first `k`
chunks issued — whether the signal is caught at chunk `k`'s re-check poll or
at chunk `k+1`'s pre-chunk poll. -/
theorem processChunks_cancel_after (oracle : Nat → ApplyResponse)
    (kill : Nat → Bool) (recordType : String) :
    ∀ (k : Nat) (cl : List (List PlayRecord)) (t c succ err : Nat),
    1 ≤ k → k < cl.length →
    (∀ i, i + 3 ≤ 3 * k → kill (t + i) = false) →
    kill (t + 3 * k) = true →
    processChunks oracle kill recordType cl t c succ err =
      (⟨succ + (countsFrom oracle c cl k).1,
        err + (countsFrom oracle c cl k).2, true⟩,
       (cl.take k).map (mkWrites recordType)) := by
  intro k
  induction k with
  | zero => intro cl t c succ err hk; omega
  | succ k ih =>
    intro cl t c succ err _ hlen hquiet htrue
    match cl, hlen with
    | batch :: rest, hlen =>
      have hkt : kill t = false := by
        have := hquiet 0 (by omega)
        simpa using this
      rcases hbo : batchOutcome (oracle c) batch.length with ⟨s, e⟩
      rcases Nat.eq_zero_or_pos k with hk0 | hkpos
      · subst hk0
        have ht3 : kill (t + 3) = true := by simpa using htrue
        have hcounts : countsFrom oracle c (batch :: rest) 1 = (s, e) := by
          simp [countsFrom, hbo]
        by_cases hkt2 : kill (t + 2) = true
        · simp [processChunks, hkt, hkt2, hbo, hcounts, handleCancellation]
        · have hkt2' : kill (t + 2) = false := by
            simpa using hkt2
          match rest, hlen with
          | batch2 :: rest2, _ =>
            simp [processChunks, hkt, hkt2', hbo, ht3, hcounts,
              handleCancellation]
      · have hkt2 : kill (t + 2) = false := hquiet 2 (by omega)
        have ihargs : processChunks oracle kill recordType rest (t + 3) (c + 1)
            (succ + s) (err + e) =
            (⟨succ + s + (countsFrom oracle (c + 1) rest k).1,
              err + e + (countsFrom oracle (c + 1) rest k).2, true⟩,
             (rest.take k).map (mkWrites recordType)) := by
          refine ih rest (t + 3) (c + 1) (succ + s) (err + e) hkpos
            (by simpa using hlen) ?_ ?_
          · intro i hi
            have := hquiet (i + 3) (by omega)
            have harith : t + (i + 3) = t + 3 + i := by omega
            rwa [harith] at this
          · have harith : t + 3 * (k + 1) = t + 3 + 3 * k := by omega
            rwa [harith] at htrue
        have hcounts : countsFrom oracle c (batch :: rest) (k + 1) =
            (s + (countsFrom oracle (c + 1) rest k).1,
             e + (countsFrom oracle (c + 1) rest k).2) := by
          simp [countsFrom, hbo]
        simp only [processChunks, hkt, Bool.false_eq_true, if_false, hbo,
          hkt2, ihargs, hcounts]
        simp [List.take_cons, Nat.add_assoc]

/-- C6: if the cancellation signal is unset at every poll up to and including
the last poll before chunk `k`'s call returns, and is set by the pre-chunk
poll of chunk `k+1` — i.e. it becomes set after chunk `k` completes and
before chunk `k+1` starts — then the publish loop reports `cancelled = true`
with the accepted and failed counts accumulated over exactly the first `k`
chunks, and the issued write calls are exactly those of the first `k` chunks:
no call is made for chunk `k+1` or any later chunk. -/
theorem cancellation_between_chunks (oracle : Nat → ApplyResponse)
    (kill : Nat → Bool) (records : List PlayRecord) (batchSize : Nat)
    (recordType : String) (k : Nat) (hk : 1 ≤ k)
    (hmore : k < (chunks batchSize records).length)
    (hquiet : ∀ i, i + 3 ≤ 3 * k → kill i = false)
    (hset : kill (3 * k) = true) :
    processDayBatchWithApplyWrites oracle kill records batchSize recordType 0 0 =
      (⟨(countsFrom oracle 0 (chunks batchSize records) k).1,
        (countsFrom oracle 0 (chunks batchSize records) k).2, true⟩,
       ((chunks batchSize records).take k).map (mkWrites recordType)) := by
  have h := processChunks_cancel_after oracle kill recordType k
    (chunks batchSize records) 0 0 0 0 hk hmore
    (by intro i hi; simpa using hquiet i hi) (by simpa using hset)
  simpa [processDayBatchWithApplyWrites] using h

/-- C6 witness: five 1-record chunks, the signal first set at poll index 4 —
inside the window after chunk 2 completes (its polls are 3, 4, 5) and before
chunk 3 starts (poll 6): the run cancels with exactly the two accepted
records of chunks 1 and 2 and only their two write calls issued. -/
theorem cancellation_between_chunks_witness :
    processDayBatchWithApplyWrites (fun _ => .ok none) (fun i => decide (4 ≤ i))
      [bohemian, bohemian, bohemian, bohemian, bohemian] 1
      "fm.teal.alpha.feed.play" 0 0 =
      (⟨2, 0, true⟩,
       [mkWrites "fm.teal.alpha.feed.play" [bohemian],
        mkWrites "fm.teal.alpha.feed.play" [bohemian]]) := by
  have hch : chunks 1 [bohemian, bohemian, bohemian, bohemian, bohemian] =
      [[bohemian], [bohemian], [bohemian], [bohemian], [bohemian]] := by
    simp [chunks]
  rw [cancellation_between_chunks (fun _ => .ok none) (fun i => decide (4 ≤ i))
    [bohemian, bohemian, bohemian, bohemian, bohemian] 1
    "fm.teal.alpha.feed.play" 2 (by omega)
    (by rw [hch]; decide)
    (by intro i hi; simp only [decide_eq_false_iff_not]; omega)
    (by decide)]
  rw [hch]
  decide

/-! ## C5: the applyWrites operation cap -/

theorem chunks_length_le_aux (batchSize : Nat) :
    ∀ (n : Nat) (l : List PlayRecord), l.length ≤ n →
    ∀ b ∈ chunks batchSize l, b.length ≤ max batchSize 1 := by
  intro n
  induction n with
  | zero =>
    intro l hl b hb
    match l, hl with
    | [], _ => simp [chunks] at hb
  | succ n ih =>
    intro l hl b hb
    match l with
    | [] => simp [chunks] at hb
    | r :: rest =>
      simp only [chunks] at hb
      rcases List.mem_cons.mp hb with hb1 | hb2
      · subst hb1
        simp only [List.length_cons, List.length_take]
        omega
      · refine ih (rest.drop (batchSize - 1)) ?_ b hb2
        simp only [List.length_drop]
        simp only [List.length_cons] at hl
        omega

theorem chunks_length_le (batchSize : Nat) (l : List PlayRecord) :
    ∀ b ∈ chunks batchSize l, b.length ≤ max batchSize 1 :=
  chunks_length_le_aux batchSize l.length l le_rfl

theorem processChunks_trace_le (oracle : Nat → ApplyResponse) (kill : Nat → Bool)
    (recordType : String) (K : Nat) :
    ∀ (cl : List (List PlayRecord)), (∀ b ∈ cl, b.length ≤ K) →
    ∀ (t c succ err : Nat),
    ∀ w ∈ (processChunks oracle kill recordType cl t c succ err).2,
      w.length ≤ K := by
  intro cl
  induction cl with
  | nil =>
    intro _ t c succ err w hw
    simp [processChunks] at hw
  | cons batch rest ih =>
    intro hcl t c succ err w hw
    have hbatch : (mkWrites recordType batch).length ≤ K := by
      simpa [mkWrites] using hcl batch (List.mem_cons_self batch rest)
    by_cases hkt : kill t = true
    · simp [processChunks, hkt] at hw
    · have hkt' : kill t = false := by simpa using hkt
      rcases hbo : batchOutcome (oracle c) batch.length with ⟨s, e⟩
      by_cases hkt2 : kill (t + 2) = true
      · simp only [processChunks, hkt', Bool.false_eq_true, if_false, hbo,
          hkt2, if_true, List.mem_singleton] at hw
        subst hw
        exact hbatch
      · have hkt2' : kill (t + 2) = false := by simpa using hkt2
        rcases hp : processChunks oracle kill recordType rest (t + 3) (c + 1)
          (succ + s) (err + e) with ⟨res, tr⟩
        simp only [processChunks, hkt', Bool.false_eq_true, if_false, hbo,
          hkt2', hp, List.mem_cons] at hw
        rcases hw with hw1 | hw2
        · subst hw1
          exact hbatch
        · exact ih (fun b hb => hcl b (List.mem_cons_of_mem _ hb))
            (t + 3) (c + 1) (succ + s) (err + e) w (by rw [hp]; exact hw2)

theorem runDays_trace_le (oracle : Nat → ApplyResponse) (kill : Nat → Bool)
    (recordType : String) (batchSize : Nat) (records : List PlayRecord)
    (K : Nat) (hbs : max batchSize 1 ≤ K) :
    ∀ (schedule : List ScheduleDay) (t c succ err : Nat)
      (trace : List (List WriteOp)), (∀ w ∈ trace, w.length ≤ K) →
    ∀ w ∈ (runDays oracle kill recordType batchSize records schedule t c succ
      err trace).2, w.length ≤ K := by
  intro schedule
  induction schedule with
  | nil =>
    intro t c succ err trace htrace w hw
    simp only [runDays] at hw
    exact htrace w hw
  | cons day rest ih =>
    intro t c succ err trace htrace w hw
    have hday : ∀ w' ∈ (processChunks oracle kill recordType
        (chunks batchSize ((records.drop day.recordsStart).take
          (day.recordsEnd - day.recordsStart))) t c 0 0).2, w'.length ≤ K := by
      intro w' hw'
      have hb := chunks_length_le batchSize
        ((records.drop day.recordsStart).take (day.recordsEnd - day.recordsStart))
      exact (processChunks_trace_le oracle kill recordType K _
        (fun b hb' => le_trans (hb b hb') hbs) t c 0 0 w' hw')
    have htrace' : ∀ w' ∈ trace ++ (processChunks oracle kill recordType
        (chunks batchSize ((records.drop day.recordsStart).take
          (day.recordsEnd - day.recordsStart))) t c 0 0).2, w'.length ≤ K := by
      intro w' hw'
      rcases List.mem_append.mp hw' with h1 | h2
      · exact htrace w' h1
      · exact hday w' h2
    rcases hp : processChunks oracle kill recordType
        (chunks batchSize ((records.drop day.recordsStart).take
          (day.recordsEnd - day.recordsStart))) t c 0 0 with ⟨res, dtr⟩
    rw [hp] at htrace'
    simp only [runDays, hp] at hw
    by_cases hc : res.cancelled = true
    · simp only [hc, if_true] at hw
      exact htrace' w hw
    · have hc' : res.cancelled = false := by simpa using hc
      simp only [hc', Bool.false_eq_true, if_false] at hw
      exact ih _ _ _ _ _ htrace' w hw

/-- C5: every `applyWrites` call issued by the non-dry-run publish pipeline —
whatever the caller-supplied batch size and whatever batch size the
rate-limit recomputation proposes, single-day or multi-day — carries at most
`MAX_APPLY_WRITES_OPS = 10` create operations: the protocol cap applied after
the rate-limit override always wins. -/
theorem applyWrites_cap (oracle : Nat → ApplyResponse) (kill : Nat → Bool)
    (records : List PlayRecord) (batchSize batchDelay : Nat)
    (rateLimiter : Nat → RateLimitParams) (recordType : String)
    (syncMode : Bool) (result : PublishResult) (trace : List (List WriteOp))
    (h : publishRecordsWithApplyWrites (some oracle) kill records batchSize
      batchDelay rateLimiter recordType false syncMode = .ok (result, trace)) :
    ∀ w ∈ trace, w.length ≤ MAX_APPLY_WRITES_OPS := by
  have hcap : ∀ bs1 : Nat, max (min bs1 MAX_APPLY_WRITES_OPS) 1 ≤
      MAX_APPLY_WRITES_OPS := by
    intro bs1
    have h1 : min bs1 MAX_APPLY_WRITES_OPS ≤ MAX_APPLY_WRITES_OPS :=
      Nat.min_le_right _ _
    have h2 : (1 : Nat) ≤ MAX_APPLY_WRITES_OPS := by norm_num [MAX_APPLY_WRITES_OPS]
    exact Nat.max_le.mpr ⟨h1, h2⟩
  simp only [publishRecordsWithApplyWrites, Bool.false_eq_true, if_false] at h
  split at h
  · rw [Except.ok.injEq] at h
    have htr : trace = (runDays oracle kill recordType
        (min (if (rateLimiter records.length).needsRateLimiting then
          (rateLimiter records.length).batchSize else batchSize)
          MAX_APPLY_WRITES_OPS) records
        (calculateDailySchedule records.length
          (min (if (rateLimiter records.length).needsRateLimiting then
            (rateLimiter records.length).batchSize else batchSize)
            MAX_APPLY_WRITES_OPS)
          (if (rateLimiter records.length).needsRateLimiting then
            (rateLimiter records.length).batchDelay else batchDelay)
          (rateLimiter records.length).recordsPerDay) 0 0 0 0 []).2 := by
      rw [h]
    rw [htr]
    exact runDays_trace_le oracle kill recordType _ records
      MAX_APPLY_WRITES_OPS (hcap _) _ 0 0 0 0 [] (by intro w hw; simp at hw)
  · rw [Except.ok.injEq] at h
    have htr : trace = (processChunks oracle kill recordType
        (chunks (min (if (rateLimiter records.length).needsRateLimiting then
          (rateLimiter records.length).batchSize else batchSize)
          MAX_APPLY_WRITES_OPS) records) 0 0 0 0).2 := by
      rw [h]
    rw [htr]
    refine processChunks_trace_le oracle kill recordType MAX_APPLY_WRITES_OPS _
      ?_ 0 0 0 0
    intro b hb
    exact le_trans (chunks_length_le _ records b hb) (hcap _)

/-- C5 witness: 12 records with a caller batch size of 20 and no rate
limiting: the pipeline issues exactly two calls, of 10 and 2 operations, both
within the cap. -/
theorem applyWrites_cap_witness :
    (mkWrites "fm.teal.alpha.feed.play"
      [bohemian, bohemian, bohemian, bohemian, bohemian, bohemian, bohemian,
       bohemian, bohemian, bohemian]).length ≤ MAX_APPLY_WRITES_OPS ∧
    (mkWrites "fm.teal.alpha.feed.play" [bohemian, bohemian]).length ≤
      MAX_APPLY_WRITES_OPS := by
  have hch : chunks 10 [bohemian, bohemian, bohemian, bohemian, bohemian,
      bohemian, bohemian, bohemian, bohemian, bohemian, bohemian, bohemian] =
      [[bohemian, bohemian, bohemian, bohemian, bohemian, bohemian, bohemian,
        bohemian, bohemian, bohemian], [bohemian, bohemian]] := by
    simp [chunks]
  have h : publishRecordsWithApplyWrites (some (fun _ => Except.ok none))
      (fun _ => false)
      [bohemian, bohemian, bohemian, bohemian, bohemian, bohemian, bohemian,
       bohemian, bohemian, bohemian, bohemian, bohemian] 20 1000
      (fun _ => ⟨false, 0, 0, 1, 0⟩) "fm.teal.alpha.feed.play" false false =
      .ok (⟨12, 0, false⟩,
        [mkWrites "fm.teal.alpha.feed.play"
          [bohemian, bohemian, bohemian, bohemian, bohemian, bohemian,
           bohemian, bohemian, bohemian, bohemian],
         mkWrites "fm.teal.alpha.feed.play" [bohemian, bohemian]]) := by
    simp only [publishRecordsWithApplyWrites, Bool.false_eq_true, if_false,
      List.length_cons, List.length_nil]
    norm_num [MAX_APPLY_WRITES_OPS]
    rw [hch]
    decide
  constructor
  · exact applyWrites_cap (fun _ => Except.ok none) (fun _ => false)
      [bohemian, bohemian, bohemian, bohemian, bohemian, bohemian, bohemian,
       bohemian, bohemian, bohemian, bohemian, bohemian] 20 1000
      (fun _ => ⟨false, 0, 0, 1, 0⟩) "fm.teal.alpha.feed.play" false
      ⟨12, 0, false⟩ _ h _ (by simp)
  · exact applyWrites_cap (fun _ => Except.ok none) (fun _ => false)
      [bohemian, bohemian, bohemian, bohemian, bohemian, bohemian, bohemian,
       bohemian, bohemian, bohemian, bohemian, bohemian] 20 1000
      (fun _ => ⟨false, 0, 0, 1, 0⟩) "fm.teal.alpha.feed.play" false
      ⟨12, 0, false⟩ _ h _ (by simp)

/-! ## Base-32 encoding lemmas (C2, C10) -/

theorem s32char_zero : s32char 0 = '2' := rfl

theorem s32char_lt_all : ∀ d2, d2 < 32 → ∀ d1, d1 < d2 → s32char d1 < s32char d2 := by
  decide

theorem s32char_lt {d1 d2 : Nat} (h2 : d2 < 32) (h : d1 < d2) :
    s32char d1 < s32char d2 :=
  s32char_lt_all d2 h2 d1 h

theorem s32encode_data : ∀ n, (s32encode n).data = (s32digits n).map s32char := by
  intro n
  induction n using Nat.strong_induction_on with
  | _ n ih =>
    rw [s32encode, s32digits]
    by_cases h : n = 0
    · simp [h]
    · simp only [dif_neg h]
      rw [String.data_append,
        ih (n / 32) (Nat.div_lt_self (Nat.pos_of_ne_zero h) (by omega))]
      simp [String.singleton]

theorem s32encode_length (n : Nat) :
    (s32encode n).length = (s32digits n).length := by
  have h : (s32encode n).length = (s32encode n).data.length := rfl
  rw [h, s32encode_data, List.length_map]

theorem s32digits_length_le : ∀ (w n : Nat), n < 32 ^ w →
    (s32digits n).length ≤ w := by
  intro w
  induction w with
  | zero =>
    intro n hn
    have h0 : n = 0 := by simpa using hn
    subst h0
    rw [s32digits]
    simp
  | succ w ih =>
    intro n hn
    rw [s32digits]
    by_cases h : n = 0
    · simp [h]
    · simp only [dif_neg h, List.length_append, List.length_cons,
        List.length_nil]
      have hdiv : n / 32 < 32 ^ w := by
        rw [Nat.div_lt_iff_lt_mul (by omega : 0 < 32)]
        calc n < 32 ^ (w + 1) := hn
        _ = 32 ^ w * 32 := by ring
      have := ih (n / 32) hdiv
      omega

theorem s32digits_length_ge : ∀ (w n : Nat), 32 ^ w ≤ n →
    w + 1 ≤ (s32digits n).length := by
  intro w
  induction w with
  | zero =>
    intro n hn
    have h : n ≠ 0 := by
      intro h0
      rw [h0] at hn
      simp at hn
    rw [s32digits]
    simp [h]
  | succ w ih =>
    intro n hn
    have h : n ≠ 0 := by
      intro h0
      rw [h0] at hn
      have : 0 < 32 ^ (w + 1) := Nat.pos_pow_of_pos _ (by omega)
      omega
    rw [s32digits]
    simp only [dif_neg h, List.length_append, List.length_cons, List.length_nil]
    have hdiv : 32 ^ w ≤ n / 32 := by
      rw [Nat.le_div_iff_mul_le (by omega : 0 < 32)]
      calc 32 ^ w * 32 = 32 ^ (w + 1) := by ring
      _ ≤ n := hn
    have := ih (n / 32) hdiv
    omega

theorem natDigitsBE_zero : ∀ w, natDigitsBE w 0 = List.replicate w 0 := by
  intro w
  induction w with
  | zero => rfl
  | succ w ih =>
    rw [natDigitsBE]
    rw [Nat.zero_div, ih, List.replicate_succ']

theorem natDigitsBE_length : ∀ w n, (natDigitsBE w n).length = w := by
  intro w
  induction w with
  | zero => intro n; rfl
  | succ w ih =>
    intro n
    rw [natDigitsBE]
    simp [ih]

theorem pad_s32digits : ∀ (w n : Nat), n < 32 ^ w →
    List.replicate (w - (s32digits n).length) 0 ++ s32digits n =
      natDigitsBE w n := by
  intro w
  induction w with
  | zero =>
    intro n hn
    have h0 : n = 0 := by simpa using hn
    subst h0
    rw [s32digits]
    rfl
  | succ w ih =>
    intro n hn
    by_cases h : n = 0
    · subst h
      rw [s32digits, natDigitsBE_zero]
      simp
    · have hdiv : n / 32 < 32 ^ w := by
        rw [Nat.div_lt_iff_lt_mul (by omega : 0 < 32)]
        calc n < 32 ^ (w + 1) := hn
        _ = 32 ^ w * 32 := by ring
      rw [s32digits]
      simp only [dif_neg h, List.length_append, List.length_cons,
        List.length_nil]
      have harith : w + 1 - ((s32digits (n / 32)).length + (0 + 1)) =
          w - (s32digits (n / 32)).length := by omega
      rw [harith, ← List.append_assoc, ih (n / 32) hdiv]
      rw [natDigitsBE]

theorem lex_append_last (a b : Char) (h : a < b) :
    ∀ l : List Char, List.Lex (· < ·) (l ++ [a]) (l ++ [b]) := by
  intro l
  induction l with
  | nil => exact List.Lex.rel h
  | cons c cs ih => exact List.Lex.cons ih

theorem lex_append_of_lex :
    ∀ {l1 l2 : List Char}, List.Lex (· < ·) l1 l2 → l1.length = l2.length →
    ∀ t1 t2 : List Char, List.Lex (· < ·) (l1 ++ t1) (l2 ++ t2) := by
  intro l1 l2 h
  induction h with
  | nil => intro hlen; simp at hlen
  | cons h ih =>
    intro hlen t1 t2
    exact List.Lex.cons (ih (by simpa using hlen) t1 t2)
  | rel h =>
    intro _ t1 t2
    exact List.Lex.rel h

theorem natDigitsBE_lex : ∀ (w n1 n2 : Nat), n1 < n2 → n2 < 32 ^ w →
    List.Lex (· < ·) ((natDigitsBE w n1).map s32char)
      ((natDigitsBE w n2).map s32char) := by
  intro w
  induction w with
  | zero =>
    intro n1 n2 h12 h2
    have : n2 = 0 := by simpa using h2
    omega
  | succ w ih =>
    intro n1 n2 h12 h2
    have hq2 : n2 / 32 < 32 ^ w := by
      rw [Nat.div_lt_iff_lt_mul (by omega : 0 < 32)]
      calc n2 < 32 ^ (w + 1) := h2
      _ = 32 ^ w * 32 := by ring
    rw [natDigitsBE, natDigitsBE, List.map_append, List.map_append]
    rcases Nat.lt_or_ge (n1 / 32) (n2 / 32) with hq | hq
    · refine lex_append_of_lex (ih (n1 / 32) (n2 / 32) hq hq2) ?_ _ _
      simp [natDigitsBE_length]
    · have hqe : n1 / 32 = n2 / 32 := by
        have : n1 / 32 ≤ n2 / 32 := Nat.div_le_div_right (Nat.le_of_lt h12)
        omega
      have hr : n1 % 32 < n2 % 32 := by
        have e1 := Nat.div_add_mod n1 32
        have e2 := Nat.div_add_mod n2 32
        omega
      rw [hqe]
      simp only [List.map_cons, List.map_nil]
      exact lex_append_last _ _ (s32char_lt (Nat.mod_lt _ (by omega)) hr) _

theorem padStart_data (s : String) (w : Nat) (c : Char) :
    (padStart s w c).data = List.replicate (w - s.data.length) c ++ s.data := by
  rw [padStart, String.data_append]
  rfl

theorem padStart_s32encode_data (n : Nat) (hn : n < 32 ^ 11) :
    (padStart (s32encode n) 11 '2').data =
      (natDigitsBE 11 n).map s32char := by
  rw [padStart_data, s32encode_data]
  have hlen : (s32digits n).length = ((s32digits n).map s32char).length := by
    simp
  rw [← hlen]
  have hrep : List.replicate (11 - (s32digits n).length) '2' =
      (List.replicate (11 - (s32digits n).length) 0).map s32char := by
    rw [List.map_replicate, s32char_zero]
  rw [hrep, ← List.map_append, pad_s32digits 11 n hn]

theorem s32encode_zero : s32encode 0 = "" := by
  rw [s32encode]
  rfl

theorem clockid_str : padStart (s32encode 0) 2 '2' = "22" := by
  rw [s32encode_zero]
  rfl

theorem generateTID_data (ms : Nat) (h : ms * 1000 < 32 ^ 11) :
    (generateTID ms).data =
      (natDigitsBE 11 (ms * 1000)).map s32char ++ ['2', '2'] := by
  rw [generateTID]
  rw [clockid_str, String.data_append, padStart_s32encode_data _ h]

theorem generateTID_length_eq (ms : Nat) :
    (generateTID ms).length =
      (11 - (s32digits (ms * 1000)).length) + (s32digits (ms * 1000)).length
        + 2 := by
  rw [generateTID]
  rw [String.length_append, clockid_str]
  have h1 : (padStart (s32encode (ms * 1000)) 11 '2').length =
      (11 - (s32digits (ms * 1000)).length) + (s32digits (ms * 1000)).length := by
    have := padStart_data (s32encode (ms * 1000)) 11 '2'
    have hl : (padStart (s32encode (ms * 1000)) 11 '2').length =
        (padStart (s32encode (ms * 1000)) 11 '2').data.length := rfl
    rw [hl, this]
    simp only [List.length_append, List.length_replicate]
    have : (s32encode (ms * 1000)).data.length =
        (s32digits (ms * 1000)).length := by
      rw [s32encode_data, List.length_map]
    rw [this]
  rw [h1]
  rfl

/-! ## C2: the TID contract -/

/-- C2 counterexample.  The claim quantifies over every `Date`; for the valid
JavaScript date with `getTime() = 70368744177664` (microsecond value at least
`32^11`, still exactly representable as `2^49 * 125` in an IEEE double) the
base-32 encoding is 12 characters long, `padStart` does not truncate, and the
generated TID has 14 characters, not 13. -/
theorem generateTID_length_overflow :
    (generateTID 70368744177664).length ≠ 13 := by
  have hlow : (32 : Nat) ^ 11 ≤ 70368744177664 * 1000 := by norm_num
  have hhigh : 70368744177664 * 1000 < (32 : Nat) ^ 12 := by norm_num
  have hge := s32digits_length_ge 11 (70368744177664 * 1000) hlow
  have hle := s32digits_length_le 12 (70368744177664 * 1000) hhigh
  rw [generateTID_length_eq]
  omega

/-- C2 (amended): for dates whose microsecond value fits the 11-character
base-32 window (`getTime() * 1000 < 32^11`, i.e. every date before the year
3084 — all of the importer's history and far beyond), `generateTID` returns a
string of length exactly 13, equal inputs give equal outputs, and the output
is strictly increasing in the timestamp under lexical string order. -/
theorem generateTID_contract (ms1 ms2 : Nat)
    (h1 : ms1 * 1000 < 32 ^ 11) (h2 : ms2 * 1000 < 32 ^ 11) :
    (generateTID ms1).length = 13 ∧
    (ms1 = ms2 → generateTID ms1 = generateTID ms2) ∧
    (ms1 < ms2 → generateTID ms1 < generateTID ms2) := by
  refine ⟨?_, ?_, ?_⟩
  · rw [generateTID_length_eq]
    have hle := s32digits_length_le 11 (ms1 * 1000) h1
    omega
  · intro h
    rw [h]
  · intro hlt
    rw [String.lt_iff_toList_lt]
    show (generateTID ms1).data < (generateTID ms2).data
    rw [generateTID_data ms1 h1, generateTID_data ms2 h2]
    show List.Lex (· < ·) _ _
    refine lex_append_of_lex ?_ ?_ _ _
    · exact natDigitsBE_lex 11 _ _ (by omega) h2
    · simp [natDigitsBE_length]

/-- C2 witness: at the concrete instants 0 and 1 the TID has length 13 and
the order is strict. -/
theorem generateTID_contract_witness :
    (generateTID 0).length = 13 ∧ generateTID 0 < generateTID 1 :=
  ⟨(generateTID_contract 0 1 (by norm_num) (by norm_num)).1,
   (generateTID_contract 0 1 (by norm_num) (by norm_num)).2.2 (by norm_num)⟩

/-! ## C10: the two generateTID implementations -/

/-- C10 counterexample.  The two implementations are not extensionally equal:
for the 2005-01-01T00:00:00Z scrobble (`getTime() = 1104537600000`, whose
microsecond value is below `32^10`) the library `TID.fromTime` used by
src/unnamed/part_002 does not pad the 10-character timestamp encoding, so its
12-character string is rejected by the TID constructor (`Poorly formatted
TID`), while the padded implementation of src/utils/tid.ts returns a proper
13-character TID. -/
theorem tid_implementations_differ :
    TidLib.generateTID 1104537600000 = .error "Poorly formatted TID" ∧
    (generateTID 1104537600000).length = 13 := by
  have h9 : (32 : Nat) ^ 9 ≤ 1104537600000 * 1000 := by norm_num
  have h10 : 1104537600000 * 1000 < (32 : Nat) ^ 10 := by norm_num
  have hge := s32digits_length_ge 9 (1104537600000 * 1000) h9
  have hle := s32digits_length_le 10 (1104537600000 * 1000) h10
  constructor
  · rw [TidLib.generateTID, TidLib.fromTime]
    have hlen : (s32encode (1104537600000 * 1000) ++
        padStart (s32encode 0) 2 '2').length = 12 := by
      rw [String.length_append, clockid_str, s32encode_length]
      have h22 : ("22" : String).length = 2 := rfl
      omega
    simp [hlen]
  · rw [generateTID_length_eq]
    have hle11 := s32digits_length_le 11 (1104537600000 * 1000)
      (lt_trans h10 (by norm_num))
    omega

/-- C10 (amended): the two implementations agree exactly on the dates whose
microsecond value needs exactly 11 base-32 digits (`32^10 ≤ getTime() * 1000 <
32^11`, i.e. from 2005-09-09 onwards until the year 3084): there the unpadded
library encoding already has 11 characters and both return the identical
13-character TID; for earlier dates the library implementation throws. -/
theorem tid_implementations_agree_in_range (ms : Nat)
    (hlow : 32 ^ 10 ≤ ms * 1000) (hhigh : ms * 1000 < 32 ^ 11) :
    TidLib.generateTID ms = .ok (generateTID ms) := by
  have hlen11 : (s32digits (ms * 1000)).length = 11 := by
    have hge := s32digits_length_ge 10 (ms * 1000) hlow
    have hle := s32digits_length_le 11 (ms * 1000) hhigh
    omega
  have hdigits : natDigitsBE 11 (ms * 1000) = s32digits (ms * 1000) := by
    rw [← pad_s32digits 11 (ms * 1000) hhigh, hlen11]
    simp
  have hdata : (s32encode (ms * 1000) ++ padStart (s32encode 0) 2 '2').data =
      (generateTID ms).data := by
    rw [generateTID_data ms hhigh, String.data_append, clockid_str,
      s32encode_data, hdigits]
  have hstr : s32encode (ms * 1000) ++ padStart (s32encode 0) 2 '2' =
      generateTID ms := String.toList_inj.mp hdata
  rw [TidLib.generateTID, TidLib.fromTime]
  have hlen13 : (s32encode (ms * 1000) ++
      padStart (s32encode 0) 2 '2').length = 13 := by
    rw [String.length_append, clockid_str, s32encode_length, hlen11]
    rfl
  rw [if_pos hlen13, hstr]

/-- C10 witness: on 2008-01-10T21:20:00Z (`getTime() = 1200000000000`) the
library implementation succeeds and returns exactly the padded
implementation's TID. -/
theorem tid_implementations_agree_witness :
    TidLib.generateTID 1200000000000 = .ok (generateTID 1200000000000) :=
  tid_implementations_agree_in_range 1200000000000 (by norm_num) (by norm_num)

/-! ## C4: the batch-size planner -/

/-- C4 counterexample.  The claim asserts monotonicity for every configuration
and batch delay.  With scaling threshold 100, base size 15, maximum 50,
scaling factor 1 and a batch delay of 1000 ms (below the 1500 ms safety
threshold): 100 records give batch size 15, but 200 records give
`floor(15 + log2(2) * 1) = 16 > 15`, which triggers the 25% reduction to 12 —
the planner is not non-decreasing in the total. -/
theorem calculateOptimalBatchSize_not_monotone :
    calculateOptimalBatchSize 100 1000 demoConfig = 15 ∧
    calculateOptimalBatchSize 200 1000 demoConfig = 12 ∧
    calculateOptimalBatchSize 200 1000 demoConfig <
      calculateOptimalBatchSize 100 1000 demoConfig := by
  have h100 : calculateOptimalBatchSize 100 1000 demoConfig = 15 := by
    rw [calculateOptimalBatchSize]
    norm_num [demoConfig]
  have h200 : calculateOptimalBatchSize 200 1000 demoConfig = 12 := by
    rw [calculateOptimalBatchSize]
    have hlogb : Real.logb 2 ((200 : Nat) / ((100 : Nat) : Real)) = 1 := by
      norm_num
    norm_num [demoConfig, hlogb]
    decide
  exact ⟨h100, h200, by rw [h100, h200]; norm_num⟩

/-- With an effective batch delay of at least 1500 ms the 25% reduction branch
of `calculateOptimalBatchSize` is dead and the planner reduces to the pure
log-scaled formula. -/
theorem calcBatch_no_reduction (cfg : BatchConfig) (batchDelay t : Nat)
    (hdelay : 1500 ≤ batchDelay) :
    calculateOptimalBatchSize t batchDelay cfg =
      if t ≤ 50 then 3
      else if t ≤ cfg.MIN_RECORDS_FOR_SCALING then cfg.BASE_BATCH_SIZE
      else (max 3 (min ⌊(cfg.BASE_BATCH_SIZE : Real) +
        Real.logb 2 ((t : Real) / (cfg.MIN_RECORDS_FOR_SCALING : Real)) *
          cfg.SCALING_FACTOR⌋ (cfg.MAX_BATCH_SIZE : Int))).toNat := by
  have h0 : ¬ (batchDelay = 0) := by omega
  have hnr : ∀ z : Int, ¬ (batchDelay < 1500 ∧ 15 < z) := by
    intro z hc
    omega
  simp only [calculateOptimalBatchSize, if_neg h0, if_neg (hnr _)]

theorem calcBatch_bounds (cfg : BatchConfig) (batchDelay t : Nat)
    (hmin : 1 ≤ cfg.MIN_RECORDS_FOR_SCALING)
    (hbase : 3 ≤ cfg.BASE_BATCH_SIZE)
    (hbasemax : cfg.BASE_BATCH_SIZE ≤ cfg.MAX_BATCH_SIZE)
    (hdelay : 1500 ≤ batchDelay) :
    3 ≤ calculateOptimalBatchSize t batchDelay cfg ∧
    calculateOptimalBatchSize t batchDelay cfg ≤ cfg.MAX_BATCH_SIZE := by
  rw [calcBatch_no_reduction cfg batchDelay t hdelay]
  by_cases h50 : t ≤ 50
  · rw [if_pos h50]
    omega
  · rw [if_neg h50]
    by_cases hm : t ≤ cfg.MIN_RECORDS_FOR_SCALING
    · rw [if_pos hm]
      omega
    · rw [if_neg hm]
      constructor
      · have h3 : (3 : Int) ≤ max 3 (min ⌊(cfg.BASE_BATCH_SIZE : Real) +
            Real.logb 2 ((t : Real) / (cfg.MIN_RECORDS_FOR_SCALING : Real)) *
              cfg.SCALING_FACTOR⌋ (cfg.MAX_BATCH_SIZE : Int)) := le_max_left _ _
        have := Int.toNat_le_toNat h3
        simpa using this
      · have hX3 : (3 : Int) ≤ (cfg.MAX_BATCH_SIZE : Int) := by
          exact_mod_cast le_trans hbase hbasemax
        have hle : max 3 (min ⌊(cfg.BASE_BATCH_SIZE : Real) +
            Real.logb 2 ((t : Real) / (cfg.MIN_RECORDS_FOR_SCALING : Real)) *
              cfg.SCALING_FACTOR⌋ (cfg.MAX_BATCH_SIZE : Int)) ≤
            (cfg.MAX_BATCH_SIZE : Int) :=
          max_le hX3 (min_le_right _ _)
        have := Int.toNat_le_toNat hle
        simpa using this

theorem calcBatch_mono (cfg : BatchConfig) (batchDelay t1 t2 : Nat)
    (hmin : 1 ≤ cfg.MIN_RECORDS_FOR_SCALING)
    (hbase : 3 ≤ cfg.BASE_BATCH_SIZE)
    (hbasemax : cfg.BASE_BATCH_SIZE ≤ cfg.MAX_BATCH_SIZE)
    (hsf : 0 ≤ cfg.SCALING_FACTOR)
    (hdelay : 1500 ≤ batchDelay) (h12 : t1 ≤ t2) :
    calculateOptimalBatchSize t1 batchDelay cfg ≤
      calculateOptimalBatchSize t2 batchDelay cfg := by
  have hM : (0 : Real) < (cfg.MIN_RECORDS_FOR_SCALING : Real) := by
    exact_mod_cast hmin
  by_cases h1a : t1 ≤ 50
  · rw [calcBatch_no_reduction cfg batchDelay t1 hdelay, if_pos h1a]
    exact (calcBatch_bounds cfg batchDelay t2 hmin hbase hbasemax hdelay).1
  · have h2a : ¬ t2 ≤ 50 := by omega
    by_cases h1m : t1 ≤ cfg.MIN_RECORDS_FOR_SCALING
    · rw [calcBatch_no_reduction cfg batchDelay t1 hdelay, if_neg h1a,
        if_pos h1m]
      by_cases h2m : t2 ≤ cfg.MIN_RECORDS_FOR_SCALING
      · rw [calcBatch_no_reduction cfg batchDelay t2 hdelay, if_neg h2a,
          if_pos h2m]
      · rw [calcBatch_no_reduction cfg batchDelay t2 hdelay, if_neg h2a,
          if_neg h2m]
        have hge1 : (1 : Real) ≤ (t2 : Real) /
            (cfg.MIN_RECORDS_FOR_SCALING : Real) := by
          rw [le_div_iff hM, one_mul]
          exact_mod_cast (by omega : cfg.MIN_RECORDS_FOR_SCALING ≤ t2)
        have hlog : (0 : Real) ≤ Real.logb 2
            ((t2 : Real) / (cfg.MIN_RECORDS_FOR_SCALING : Real)) :=
          Real.logb_nonneg (by norm_num) hge1
        have hfloor : (cfg.BASE_BATCH_SIZE : Int) ≤
            ⌊(cfg.BASE_BATCH_SIZE : Real) +
              Real.logb 2 ((t2 : Real) / (cfg.MIN_RECORDS_FOR_SCALING : Real)) *
                cfg.SCALING_FACTOR⌋ := by
          apply Int.le_floor.mpr
          push_cast
          nlinarith [mul_nonneg hlog hsf]
        have hminle : (cfg.BASE_BATCH_SIZE : Int) ≤
            min (⌊(cfg.BASE_BATCH_SIZE : Real) +
              Real.logb 2 ((t2 : Real) / (cfg.MIN_RECORDS_FOR_SCALING : Real)) *
                cfg.SCALING_FACTOR⌋) (cfg.MAX_BATCH_SIZE : Int) :=
          le_min hfloor (by exact_mod_cast hbasemax)
        have hmaxle : (cfg.BASE_BATCH_SIZE : Int) ≤
            max 3 (min (⌊(cfg.BASE_BATCH_SIZE : Real) +
              Real.logb 2 ((t2 : Real) / (cfg.MIN_RECORDS_FOR_SCALING : Real)) *
                cfg.SCALING_FACTOR⌋) (cfg.MAX_BATCH_SIZE : Int)) :=
          le_trans hminle (le_max_right _ _)
        have := Int.toNat_le_toNat hmaxle
        simpa using this
    · have h2m : ¬ t2 ≤ cfg.MIN_RECORDS_FOR_SCALING := by omega
      rw [calcBatch_no_reduction cfg batchDelay t1 hdelay, if_neg h1a,
        if_neg h1m, calcBatch_no_reduction cfg batchDelay t2 hdelay,
        if_neg h2a, if_neg h2m]
      apply Int.toNat_le_toNat
      refine max_le_max le_rfl (min_le_min ?_ le_rfl)
      apply Int.floor_le_floor
      have hpos : (0 : Real) < (t1 : Real) /
          (cfg.MIN_RECORDS_FOR_SCALING : Real) := by
        apply div_pos _ hM
        exact_mod_cast (by omega : 0 < t1)
      have hdivle : (t1 : Real) / (cfg.MIN_RECORDS_FOR_SCALING : Real) ≤
          (t2 : Real) / (cfg.MIN_RECORDS_FOR_SCALING : Real) := by
        have ht : (t1 : Real) ≤ (t2 : Real) := by exact_mod_cast h12
        gcongr
      have hlogle := Real.logb_le_logb_of_le (by norm_num : (1 : Real) < 2)
        hpos hdivle
      have := mul_le_mul_of_nonneg_right hlogle hsf
      linarith

/-- C4 (amended): for every sane configuration — positive scaling threshold,
`3 ≤ BASE_BATCH_SIZE ≤ MAX_BATCH_SIZE`, non-negative scaling factor — and
every batch delay of at least the 1500 ms safety threshold (so the 25%
low-delay reduction does not apply), `calculateOptimalBatchSize` is
non-decreasing in the total record count and its result always lies in
`[3, MAX_BATCH_SIZE]`.  Below the threshold the 25% reduction breaks
monotonicity at the 15-to-16 crossing. -/
theorem calculateOptimalBatchSize_monotone_bounded (cfg : BatchConfig)
    (batchDelay t1 t2 : Nat)
    (hmin : 1 ≤ cfg.MIN_RECORDS_FOR_SCALING)
    (hbase : 3 ≤ cfg.BASE_BATCH_SIZE)
    (hbasemax : cfg.BASE_BATCH_SIZE ≤ cfg.MAX_BATCH_SIZE)
    (hsf : 0 ≤ cfg.SCALING_FACTOR)
    (hdelay : 1500 ≤ batchDelay) (h12 : t1 ≤ t2) :
    calculateOptimalBatchSize t1 batchDelay cfg ≤
      calculateOptimalBatchSize t2 batchDelay cfg ∧
    3 ≤ calculateOptimalBatchSize t1 batchDelay cfg ∧
    calculateOptimalBatchSize t1 batchDelay cfg ≤ cfg.MAX_BATCH_SIZE :=
  ⟨calcBatch_mono cfg batchDelay t1 t2 hmin hbase hbasemax hsf hdelay h12,
   (calcBatch_bounds cfg batchDelay t1 hmin hbase hbasemax hdelay).1,
   (calcBatch_bounds cfg batchDelay t1 hmin hbase hbasemax hdelay).2⟩

/-- C4 witness: with the demonstration configuration and a 2000 ms delay the
planner is monotone from 60 to 400 records and in range at 60. -/
theorem calculateOptimalBatchSize_monotone_bounded_witness :
    calculateOptimalBatchSize 60 2000 demoConfig ≤
      calculateOptimalBatchSize 400 2000 demoConfig ∧
    3 ≤ calculateOptimalBatchSize 60 2000 demoConfig ∧
    calculateOptimalBatchSize 60 2000 demoConfig ≤ demoConfig.MAX_BATCH_SIZE :=
  calculateOptimalBatchSize_monotone_bounded demoConfig 2000 60 400
    (by norm_num [demoConfig]) (by norm_num [demoConfig])
    (by norm_num [demoConfig]) (by norm_num [demoConfig])
    (by norm_num) (by norm_num)
